import Mathlib

/-!
Verification development for the Inboxly IMAP synchronization backend.

Shallow embedding of the NestJS services under `src/backend/src/imap/services`
(`folder-sync.service.ts`, `imap-sync.service.ts`, `imap-connection.service.ts`,
`email-processor.service.ts`).  JavaScript strings are modelled by `String`
(operated on through their underlying `List Char` where the source uses
per-character regex replacement), JS `undefined`/nullable values by `Option`,
thrown exceptions by `Except`, and the external collaborators (IMAP adapter,
DNS, sockets, `Date` parsing of non-ISO strings, the database) by explicitly
passed oracle functions, since their behaviour is outside the repository.
-/

namespace Inboxly

/-! ## Shared string helpers (JS built-ins used by the services) -/

/-- Does `s` start with `pat` (on character lists)? -/
def startsWithChars : List Char → List Char → Bool
  | [], _ => true
  | _ :: _, [] => false
  | p :: ps, c :: cs => p = c && startsWithChars ps cs

/-- Does `pat` occur as a contiguous run inside `s` (on character lists)? -/
def hasSubstr (pat : List Char) : List Char → Bool
  | [] => pat.isEmpty
  | c :: rest => startsWithChars pat (c :: rest) || hasSubstr pat rest

/-- JS `a.includes(b)` on strings: substring containment. -/
def jsIncludes (s sub : String) : Bool :=
  hasSubstr sub.data s.data

/-- JS `s.startsWith(pre)`. -/
def jsStartsWith (s pre : String) : Bool :=
  startsWithChars pre.data s.data

/-- JS `s.toLowerCase()`, per character (the inputs here are ASCII). -/
def jsToLower (s : String) : String :=
  ⟨s.data.map Char.toLower⟩

/-- JS object property lookup `obj[key]` on an object modelled as an
insertion-ordered association list (JS objects cannot hold duplicate keys,
so the first binding is the binding). -/
def jsLookup (obj : List (String × String)) (key : String) : Option String :=
  (obj.find? (fun p => p.1 == key)).map Prod.snd

/-- JS `Math.round ((n / d) * 100)` for natural `n`, `d` (`d > 0`), used for
the progress percentages in `imap-sync.service.ts`.
`Math.round x = ⌊x + 1/2⌋`, and `⌊100*n/d + 1/2⌋ = ⌊(200*n + d) / (2*d)⌋`. -/
def jsRound100 (n d : Nat) : Nat :=
  (200 * n + d) / (2 * d)

/-! ## FolderSyncService (`folder-sync.service.ts`)

### `sanitizeFolderName` (lines 121-131)

The source applies eight global single-character regex replacements in
sequence.  For a single-character pattern and single-character replacement,
JS `s.replace(/c/g, r)` is exactly a character map over the string, so each
`.replace` step is modelled at the `List Char` level. -/

/-- One global single-character replacement, `s.replace(/p/g, r)`. -/
def replaceAllChar (p r : Char) (s : List Char) : List Char :=
  s.map (fun c => if c = p then r else c)

/-- Embedding of `sanitizeFolderName`, on the underlying character list; the eight
`.replace` calls of the source, in source order.
`'\x27'` is the apostrophe character (replacement for `"`). -/
def sanitizeChars (s : List Char) : List Char :=
  replaceAllChar '|' '_'
    (replaceAllChar '>' ')'
      (replaceAllChar '<' '('
        (replaceAllChar '"' '\x27'
          (replaceAllChar '?' '_'
            (replaceAllChar '*' '_'
              (replaceAllChar '\\' '-'
                (replaceAllChar '/' '-' s)))))))

/-- Embedding of `FolderSyncService.sanitizeFolderName`. -/
def sanitizeFolderName (name : String) : String :=
  ⟨sanitizeChars name.data⟩

/-- The composite per-character substitution performed by
`sanitizeFolderName` (read off from the eight replacement steps). -/
def sanitizeChar (c : Char) : Char :=
  if c = '/' then '-'
  else if c = '\\' then '-'
  else if c = '*' then '_'
  else if c = '?' then '_'
  else if c = '"' then '\x27'
  else if c = '<' then '('
  else if c = '>' then ')'
  else if c = '|' then '_'
  else c

/-! ### Folder hierarchy parsing (`parseFolderHierarchy`, lines 93-119) -/

/-- A node of the `IMAP.MailBoxes` tree handed to `parseFolderHierarchy`:
the reported raw folder name, its attributes, and `children`
(`null` or a nested boxes object).  Iteration order of `for (const name in
boxes)` is the object's insertion order, modelled by the list order. -/
inductive BoxTree where
  | node (name : String) (attribs : List String) (children : Option (List BoxTree))
deriving Repr

/-- The `ImapFolder` records pushed by `parseFolderHierarchy`
(`interfaces/imap-connection.interface.ts`); `children` is always `[]`
there, so it is omitted. -/
structure ImapFolder where
  name : String
  path : String
  delimiter : String
  attribs : List String
deriving Repr, DecidableEq

mutual

/-- Embedding of `FolderSyncService.parseFolderHierarchy`: walks the boxes object,
pushing one folder per box — `name` sanitized, `path` as computed by
`parentPath ? parentPath + delimiter + name : name` — then recursing into
`box.children` when non-null. -/
def parseFolderHierarchy (boxes : List BoxTree) (parentPath : String)
    (delimiter : String := "/") : List ImapFolder :=
  match boxes with
  | [] => []
  | b :: rest =>
    parseFolderBox b parentPath delimiter ++
      parseFolderHierarchy rest parentPath delimiter

/-- The body of `parseFolderHierarchy`'s loop for a single box. -/
def parseFolderBox (b : BoxTree) (parentPath delimiter : String) :
    List ImapFolder :=
  match b with
  | .node name attribs children =>
    let path := if parentPath ≠ "" then parentPath ++ delimiter ++ name else name
    let sanitizedName := sanitizeFolderName name
    { name := sanitizedName, path := path, delimiter := delimiter,
      attribs := attribs } ::
      (match children with
       | none => []
       | some cs => parseFolderHierarchy cs path delimiter)

end

/-! ### `createMissingFolders` (lines 133-156)

The adapter call `connection.addBox(path, cb)` is modelled as an oracle
`addBox : String → Except String Unit` (error = the callback's `err`).
The observable behaviour of the method is the ordered sequence of creation
attempts with their outcomes; the per-folder `try/catch` turns a rejection
into a logged skip, so every attempt is always made. -/

/-- The comparator `(a, b) => a.path.length - b.path.length` of
`createMissingFolders`, as the total preorder it induces. -/
def pathLenLe (a b : ImapFolder) : Prop :=
  a.path.length ≤ b.path.length

instance : DecidableRel pathLenLe := fun a b =>
  inferInstanceAs (Decidable (a.path.length ≤ b.path.length))

instance : IsTotal ImapFolder pathLenLe :=
  ⟨fun a b => Nat.le_total a.path.length b.path.length⟩

instance : IsTrans ImapFolder pathLenLe :=
  ⟨fun _ _ _ => Nat.le_trans⟩

/-- Stable sort of the source folders by `a.path.length - b.path.length`.
JS `Array.prototype.sort` is specified to be stable, and any two stable
sorts for the same total preorder agree, so the stable
`List.insertionSort` models the JS sort for this comparator. -/
def sortByPathLength (folders : List ImapFolder) : List ImapFolder :=
  folders.insertionSort pathLenLe

/-- Embedding of `FolderSyncService.createMissingFolders`: returns the list of
`(path, outcome)` creation attempts in order.  Failures are caught by the
per-folder `try/catch` (logged and skipped), so the loop always continues. -/
def createMissingFolders (addBox : String → Except String Unit)
    (sourceFolders destFolders : List ImapFolder) :
    List (String × Except String Unit) :=
  let destFolderPaths := destFolders.map (fun f => f.path)
  let sortedSourceFolders := sortByPathLength sourceFolders
  sortedSourceFolders.foldr
    (fun folder acc =>
      if destFolderPaths.contains folder.path then acc
      else (folder.path, addBox folder.path) :: acc)
    []

/-! ### Message transfer (`syncFolderMessages` / `copyMessageWithFlags` /
`appendMessage`, lines 170-306)

A message stored in a folder is modelled by the raw content the `append`
call supplied, plus the flags and date options.  `syncFolderMessages`
fetches source messages with `bodies: 'HEADER'` only, so the fetch handler
(`info.which === 'HEADER'`) records exactly the raw header block of each
message.  A raw source message therefore carries both a `headerBlock` and a
`bodyBlock`, and the fetch drops the body.

A `HEADER` fetch of a message stored in the destination returns that
message's header section; every message this service appends consists of a
header block only (no body is ever part of the appended content), so the
`HEADER` fetch of a stored message is modelled as its full stored content. -/

/-- A raw message residing in a source folder on the server. -/
structure RawMessage where
  headerBlock : String
  bodyBlock : String
  flags : List String
  date : Int
deriving Repr, DecidableEq

/-- What `fetchMessages(conn, '1:*', { bodies: 'HEADER', ... })` yields per
message: `message.headers` is the `HEADER` body section, and
`message.attributes` carries flags and date. -/
structure FetchedMessage where
  headers : String
  flags : List String
  date : Int
deriving Repr, DecidableEq

/-- A message stored in the destination folder: `content` is the exact first
argument of the `connection.append(content, { mailbox, flags, date })` call
that stored it (or the pre-existing content). -/
structure StoredMessage where
  content : String
  flags : List String
  date : Int
deriving Repr, DecidableEq

/-- The `bodies: 'HEADER'` fetch over a source folder (lines 183-188 and
218-255): one `FetchedMessage` per raw message, keeping only the header
block. -/
def fetchHeaderMessages (folder : List RawMessage) : List FetchedMessage :=
  folder.map (fun m =>
    { headers := m.headerBlock, flags := m.flags, date := m.date })

/-- Embedding of `FolderSyncService.appendMessage` (lines 292-306): append the content to
the mailbox. -/
def appendMessage (folder : List StoredMessage) (content : String)
    (flags : List String) (date : Int) : List StoredMessage :=
  folder ++ [{ content := content, flags := flags, date := date }]

/-- Embedding of `FolderSyncService.copyMessageWithFlags` (lines 257-290): fetch the
destination folder's existing messages with `bodies: 'HEADER'`, compare raw
header blocks with `===`, skip on a match, otherwise append
`message.headers` with the source flags and date. -/
def copyMessageWithFlags (destFolder : List StoredMessage)
    (message : FetchedMessage) : List StoredMessage :=
  let existingMessages := destFolder.map (fun m => m.content)
  let messageExists := existingMessages.any (fun e => e == message.headers)
  if messageExists then destFolder
  else appendMessage destFolder message.headers message.flags message.date

/-- Embedding of `FolderSyncService.syncFolderMessages` (lines 170-200): fetch the source
folder with `bodies: 'HEADER'` and copy each fetched message into the
destination folder in order.  (The zero-message short-circuit is the
`[]` case; opening the folders is adapter interaction with no effect on
the stored lists.) -/
def syncFolderMessages (sourceFolder : List RawMessage)
    (destFolder : List StoredMessage) : List StoredMessage :=
  (fetchHeaderMessages sourceFolder).foldl copyMessageWithFlags destFolder

/-! ## ImapSyncService (`imap-sync.service.ts`)

### `flattenFolders` and `createMissingFolders` (lines 125-150)

Here the folder lists are hierarchical (`ImapConnectionService.parseBoxes`
output), so the service flattens them.  The nested-list hierarchy is
modelled like `BoxTree`, but carrying paths. -/

/-- A node of the hierarchical folder list consumed by
`ImapSyncService.flattenFolders` (only `path` and `children` are used). -/
inductive FolderNode where
  | node (path : String) (children : List FolderNode)
deriving Repr

mutual

/-- Embedding of `ImapSyncService.flattenFolders`: pre-order flattening (parent pushed
before its children). -/
def flattenFolders : List FolderNode → List String
  | [] => []
  | f :: rest => flattenNode f ++ flattenFolders rest

/-- One node of `flattenFolders`' loop. -/
def flattenNode : FolderNode → List String
  | .node path children => path :: flattenFolders children

end

/-- JS `new Set(xs)` followed by `Array.from`: first occurrences, in
insertion order. -/
def dedupFirst : List String → List String
  | [] => []
  | x :: rest =>
    x :: (dedupFirst rest).filter (fun y => ¬ y = x)

/-- The `missing` list computed by `ImapSyncService.createMissingFolders`
(lines 128-131): flatten both sides into path sets, keep the source paths
absent from the destination, in flattening order (no sort). -/
def imapMissingPaths (sourceFolders destFolders : List FolderNode) :
    List String :=
  let sourcePaths := dedupFirst (flattenFolders sourceFolders)
  let destPaths := dedupFirst (flattenFolders destFolders)
  sourcePaths.filter (fun p => ¬ destPaths.contains p)

/-- The `for (const folderPath of missing)` loop of
`ImapSyncService.createMissingFolders` (lines 133-141): each `addBox` is
awaited inside a promise that rejects on error, with **no surrounding
`try/catch`**, so the first failure rejects the whole call.  Returns the
successfully created paths and the terminating error, if any. -/
def imapCreateLoop (addBox : String → Except String Unit) :
    List String → List String × Option String
  | [] => ([], none)
  | p :: rest =>
    match addBox p with
    | .error e => ([], some e)
    | .ok _ =>
      let r := imapCreateLoop addBox rest
      (p :: r.1, r.2)

/-- Embedding of `ImapSyncService.createMissingFolders` (lines 125-142). -/
def imapCreateMissingFolders (addBox : String → Except String Unit)
    (sourceFolders destFolders : List FolderNode) :
    List String × Option String :=
  imapCreateLoop addBox (imapMissingPaths sourceFolders destFolders)

/-! ### The sync loop with cooperative cancellation
(`syncProcess` lines 77-111, `syncFolder` lines 152-176)

Cancellation arrives asynchronously (`cancelSync` flips `task.canceled`);
the loops observe it at the per-folder and per-message checkpoints.  The
interleaving is modelled with a logical clock that advances by one for each
message append, and a parameter `cancelAt`: the flag reads `true` exactly
when at least `cancelAt` appends have completed (so `cancelAt` picks the
point of the run at which `cancelSync` lands).  The trace records every
`eventEmitter.emit` of the processing/progress events, plus two *ghost
markers* — `cancelObservedMessage` / `cancelObservedFolder` — standing for
the early `return` statements at the two checkpoints (they are not emitted
events; they mark where the orchestrator observed the cancellation).
`waitIfPaused` resolves immediately when the task is not paused; pause is
not exercised by this claim, so the task is modelled as never paused.
Adapter calls (openBox, fetch, append) are modelled as succeeding; the
per-folder `catch` path concerns folder errors, which are orthogonal to
cancellation. -/

/-- Events of `ImapSyncService` relevant to cancellation, plus the two
ghost checkpoint markers. -/
inductive SyncEv where
  | folderStart (folderPath : String)
  | folderProgress (folderPath : String) (progress : Nat)
  | syncProgress (progress : Nat) (currentFolder : String)
  | folderComplete (folderPath : String)
  | syncCompleted (foldersProcessed totalFolders : Nat)
  | cancelObservedMessage (folderPath : String)
  | cancelObservedFolder
deriving Repr, DecidableEq

/-- Is this one of the two ghost checkpoint markers? -/
def SyncEv.isMarker : SyncEv → Bool
  | .cancelObservedMessage _ => true
  | .cancelObservedFolder => true
  | _ => false

/-- The `for (let i = 0; i < messages.length; i++)` loop of `syncFolder`:
before each message, check `canceled` (early return), then append and emit
`sync:folder:progress`.  The recursion is on `remaining = total - i`, the
number of loop iterations left.  Returns the events, the final clock, and
whether the loop returned early because of cancellation. -/
def syncFolderLoop (cancelAt : Nat) (folderPath : String) (total : Nat) :
    Nat → Nat → Nat → List SyncEv × Nat × Bool
  | 0, _i, clock => ([], clock, false)
  | remaining + 1, i, clock =>
    if cancelAt ≤ clock then
      ([SyncEv.cancelObservedMessage folderPath], clock, true)
    else
      let r := syncFolderLoop cancelAt folderPath total remaining (i + 1)
        (clock + 1)
      (SyncEv.folderProgress folderPath (jsRound100 (i + 1) total) :: r.1,
       r.2)

/-- Embedding of `ImapSyncService.syncFolder`: emit `sync:folder:start`, run the message
loop over all `total` messages, and emit `sync:folder:complete` only when
the loop was not canceled (the canceled path `return`s before the final
emit). -/
def syncFolder (cancelAt clock : Nat) (folderPath : String) (total : Nat) :
    List SyncEv × Nat × Bool :=
  let r := syncFolderLoop cancelAt folderPath total total 0 clock
  (SyncEv.folderStart folderPath ::
     (r.1 ++ if r.2.2 then [] else [SyncEv.folderComplete folderPath]),
   r.2.1, r.2.2)

/-- The `for (const folder of sourceFolders)` loop of `syncProcess`: before
each folder, check `canceled` (early return); after `syncFolder` resolves
— *also when it returned early because of cancellation* — increment
`foldersProcessed` and emit `sync:progress`; after the last folder emit
`sync:completed`.  A folder is `(path, messageCount)`. -/
def syncProcessLoop (cancelAt : Nat) (totalFolders : Nat) :
    List (String × Nat) → Nat → Nat → List SyncEv
  | [], foldersProcessed, _clock =>
    [SyncEv.syncCompleted foldersProcessed totalFolders]
  | (path, msgs) :: rest, foldersProcessed, clock =>
    if cancelAt ≤ clock then [SyncEv.cancelObservedFolder]
    else
      let r := syncFolder cancelAt clock path msgs
      let foldersProcessed' := foldersProcessed + 1
      r.1 ++
        SyncEv.syncProgress (jsRound100 foldersProcessed' totalFolders) path ::
          syncProcessLoop cancelAt totalFolders rest foldersProcessed' r.2.1

/-- Embedding of `ImapSyncService.syncProcess`, from the start of the folder loop (the
hierarchy listing and folder creation that precede it emit none of the
claim's events).  `folders` lists the source folders with their message
counts; `cancelAt` is the number of message appends after which
`cancelSync` lands. -/
def syncProcess (cancelAt : Nat) (folders : List (String × Nat)) :
    List SyncEv :=
  syncProcessLoop cancelAt folders.length folders 0 0

/-- The suffix of a trace strictly after the first ghost checkpoint marker
(`none` when no checkpoint ever observed the cancellation). -/
def afterFirstMarker : List SyncEv → Option (List SyncEv)
  | [] => none
  | e :: rest => if e.isMarker then some rest else afterFirstMarker rest

/-! ## ImapConnectionService (`imap-connection.service.ts`)

The pool state consists of the `connections` map (JS `Map` iterates in
insertion order; the session handles themselves are opaque, so only the
keys are kept), the `connectionStatus` map, and the
`connectionPriorityQueue` array.  Connection ids are `uuidv4()` strings —
modelled as freshly generated naturals.

`closeConnection(id)` registers a `once('end')` handler that performs the
map deletions and calls `connection.end()`; the deletions therefore happen
only when the underlying session later emits `'end'`, not synchronously.
The ghost field `pendingEnd` records the ids whose close has been
initiated but whose `'end'` event has not yet been processed; the separate
step `endEvent` models the arrival of that event. -/

/-- Lifecycle state of a pooled connection. -/
inductive ConnLife where
  | connecting | connected | error | disconnected
deriving Repr, DecidableEq

/-- An `ImapConnectionStatus` record (without the `Error` object). -/
structure ConnStatus where
  host : String
  port : Nat
  user : String
  state : ConnLife
  lastActivity : Nat
deriving Repr, DecidableEq

/-- The mutable state of `ImapConnectionService`. -/
structure PoolState where
  connections : List Nat
  connectionStatus : List (Nat × ConnStatus)
  connectionPriorityQueue : List Nat
  pendingEnd : List Nat
deriving Repr, DecidableEq

/-- Constant `MAX_CONNECTIONS` (line 28). -/
def MAX_CONNECTIONS : Nat := 20

/-- The empty pool. -/
def PoolState.empty : PoolState :=
  { connections := [], connectionStatus := [],
    connectionPriorityQueue := [], pendingEnd := [] }

/-- JS `Map.set` on the status map: replace the binding if present, else
append. -/
def statusSet (m : List (Nat × ConnStatus)) (id : Nat) (st : ConnStatus) :
    List (Nat × ConnStatus) :=
  if m.any (fun p => p.1 = id) then
    m.map (fun p => if p.1 = id then (id, st) else p)
  else m ++ [(id, st)]

/-- Embedding of `ImapConnectionService.closeConnection` (lines 398-413), up to the
deferred deletions: a no-op for an unknown id; otherwise `connection.end()`
is called and the deletions wait for the `'end'` event (ghost-recorded in
`pendingEnd`). -/
def closeConnectionInit (id : Nat) (s : PoolState) : PoolState :=
  if s.connections.contains id then
    { s with pendingEnd :=
        if s.pendingEnd.contains id then s.pendingEnd
        else s.pendingEnd ++ [id] }
  else s

/-- Arrival of the `'end'` event for a connection whose close was
initiated: the handler deletes the `connections` and `connectionStatus`
entries. -/
def endEvent (id : Nat) (s : PoolState) : PoolState :=
  { s with connections := s.connections.filter (fun c => ¬ c = id),
           connectionStatus := s.connectionStatus.filter (fun p => ¬ p.1 = id),
           pendingEnd := s.pendingEnd.filter (fun c => ¬ c = id) }

/-- The `connectionStatus.forEach` scan of `closeOldestConnection` (lines
419-429): the first entry whose `lastActivity` is strictly below every
earlier candidate and below `Date.now()`. -/
def findOldest (now : Nat) (entries : List (Nat × ConnStatus)) : Option Nat :=
  (entries.foldl
    (fun best p =>
      if p.2.lastActivity < best.2 then (some p.1, p.2.lastActivity) else best)
    ((none : Option Nat), now)).1

/-- Embedding of `ImapConnectionService.closeOldestConnection` (lines 419-451): close
the entry with the oldest `lastActivity` (strictly before now) and drop it
from the priority queue; if none qualifies, close the first entry of the
`connections` map.  Both paths only *initiate* the close. -/
def closeOldestConnection (now : Nat) (s : PoolState) : PoolState :=
  match findOldest now s.connectionStatus with
  | some oldestId =>
    let s' := closeConnectionInit oldestId s
    { s' with connectionPriorityQueue :=
        s'.connectionPriorityQueue.filter (fun c => ¬ c = oldestId) }
  | none =>
    match s.connections.head? with
    | some firstId => closeConnectionInit firstId s
    | none => s

/-- The connection config handed to `createConnection`
(`ImapConnectionConfig`); a `none` field models a field missing from the
incoming object, JS `undefined`. -/
structure ImapConnectionConfig where
  user : Option String
  password : Option String
  host : Option String
  port : Option Nat
deriving Repr, DecidableEq

/-- The validation of `createConnection` (lines 117-127): JS truthiness —
`!config.user` is true for a missing field and for `''`; `!config.port`
for a missing port and for `0`. -/
def configInvalid (config : ImapConnectionConfig) : Bool :=
  config.user = none || config.user = some "" ||
  config.password = none || config.password = some "" ||
  config.host = none || config.host = some "" ||
  config.port = none || config.port = some 0

/-- Errors surfaced by `createConnection`. -/
inductive PoolErr where
  | invalidConfig
  | connectFailed
deriving Repr, DecidableEq

/-- Embedding of `ImapConnectionService.createConnection` (lines 116-225).
`newId` models the generated `uuidv4()`; `now` the `Date.now()` readings;
`connectOk` the outcome of `connectWithRetry(connectionId, 3)` (an oracle
for the network: `true` = the ready event won within the retry budget).

Order of operations in the source: validate (throw before anything else);
if the pool is at/above capacity, initiate the eviction; store the new
connection and its `connecting` status; connect — on success the ready
listener sets the status to `connected` and the id is pushed to the
priority queue; on failure the status is set to `error` and the error is
rethrown *without removing the entry*. -/
def createConnection (config : ImapConnectionConfig) (newId now : Nat)
    (connectOk : Bool) (s : PoolState) : Except PoolErr Nat × PoolState :=
  if configInvalid config then (Except.error PoolErr.invalidConfig, s)
  else
    let s₁ := if MAX_CONNECTIONS ≤ s.connections.length then
        closeOldestConnection now s
      else s
    let base : ConnStatus :=
      { host := (config.host.getD ""), port := (config.port.getD 0),
        user := (config.user.getD ""), state := ConnLife.connecting,
        lastActivity := now }
    let s₂ := { s₁ with
      connections := s₁.connections ++ [newId],
      connectionStatus := statusSet s₁.connectionStatus newId base }
    if connectOk then
      let s₃ := { s₂ with
        connectionStatus := statusSet s₂.connectionStatus newId
          { base with state := ConnLife.connected },
        connectionPriorityQueue :=
          if s₂.connectionPriorityQueue.contains newId then
            s₂.connectionPriorityQueue
          else s₂.connectionPriorityQueue ++ [newId] }
      (Except.ok newId, s₃)
    else
      let s₃ := { s₂ with
        connectionStatus := statusSet s₂.connectionStatus newId
          { base with state := ConnLife.error } }
      (Except.error PoolErr.connectFailed, s₃)

/-- One requested `createConnection` call: config, clock reading, network
outcome. -/
structure CreateOp where
  config : ImapConnectionConfig
  now : Nat
  connectOk : Bool
deriving Repr

/-- Process every pending `'end'` event. -/
def flushPending (s : PoolState) : PoolState :=
  s.pendingEnd.foldl (fun st id => endEvent id st) s

/-- A driver running a sequence of `createConnection` calls under the
*prompt-eviction schedule*: every `'end'` event of an initiated close is
processed before the next call (ids are fresh naturals, as fresh
`uuidv4()` values). -/
def runCreates : PoolState → Nat → List CreateOp → PoolState
  | s, _, [] => s
  | s, nextId, op :: rest =>
    let s' := flushPending (createConnection op.config nextId op.now
      op.connectOk s).2
    runCreates s' (nextId + 1) rest

/-- A clean pool: within capacity, no close pending, and every status
entry backed by a `connections` entry.  This is the invariant maintained
under the prompt-eviction schedule. -/
def PoolClean (s : PoolState) : Prop :=
  s.connections.length ≤ MAX_CONNECTIONS ∧ s.pendingEnd = [] ∧
    ∀ id ∈ s.connectionStatus.map Prod.fst, id ∈ s.connections

/-! ## EmailProcessorService (`email-processor.service.ts`)

External effects are oracles in a `ClassifierEnv`: DNS TXT/MX resolution,
the TLS/TCP probes, the database `create`, and `new Date(string)` parsing
of the date token (ECMAScript leaves non-ISO `Date` parsing
implementation-defined, so it is an environment function; `none` models an
`Invalid Date`, whose `getTime()` is `NaN`).

JS numbers that may be `NaN` are modelled by `JsNum`. -/

/-- A JS number that may be `NaN`. -/
inductive JsNum where
  | nan
  | val (n : Int)
deriving Repr, DecidableEq

/-- One entry of a `from`/`to` address list. -/
structure EmailAddress where
  name : String
  address : String
deriving Repr, DecidableEq

/-- The fields of `EmailMessage` read by `processEmail` and its helpers.
`fromAddrs` models `message.from`; `none` is a message object whose `from`
property is `undefined` (the claim's "from address list is missing"). -/
structure EmailMessage where
  headers : List (String × String)
  date : Int
  messageId : String
  fromAddrs : Option (List EmailAddress)
deriving Repr, DecidableEq

/-- Outcome of the port-465/587 probe sequence in `checkTlsSupport`. -/
inductive TlsOutcome where
  | secure (authorized : Bool)
  | starttlsReachable
  | unreachable
  | probeTimeout
deriving Repr, DecidableEq

/-- Oracles for the external world used by `processEmail` on one message
(DNS answers are for the extracted sender domain). -/
structure ClassifierEnv where
  dateParse : String → Option Int
  dnsTxt : String → Except String (List (List String))
  mx : String → Except String (List (Nat × String))
  tlsOutcome : String → TlsOutcome
  dbCreate : Except String Unit

/-- Exceptions of the embedded JS code. -/
inductive JsErr where
  | typeError
  | dbError
deriving Repr, DecidableEq

/-- The analytics record built by `processEmail` (`EmailAnalytics`);
`Option` fields are `undefined` when absent. -/
structure EmailAnalytics where
  messageId : Option String
  sender : String
  senderDomain : String
  esp : Option String
  timeDelta : Option JsNum
  openRelay : Option Bool
  tlsSupport : Option Bool
  validCertificate : Option Bool
  userId : Option String
  connectionId : Option String
deriving Repr, DecidableEq

/-- The characters matched by the regex class `\s` (ASCII part; the
Unicode space characters do not occur in the inputs considered). -/
def isSpaceJs (c : Char) : Bool :=
  c = ' ' || c = '\t' || c = '\n' || c = '\r' || c = '\x0b' || c = '\x0c'

/-- Characters `.` does not match in a JS regex (line terminators). -/
def isLineTerm (c : Char) : Bool :=
  c = '\n' || c = '\r' || c = Char.ofNat 0x2028 || c = Char.ofNat 0x2029

/-- Matching `\s*(.+)$` against `t` (the text after a `;`), with the
backtracking of a JS regex engine: the greedy `\s*` takes the maximal
whitespace run; if nothing is left for `.+`, it gives back one whitespace
character (further backtracking cannot help, since every longer remainder
contains that line-terminator or is the same).  Returns the capture
group. -/
def matchCapture (t : List Char) : Option (List Char) :=
  let w := (t.takeWhile isSpaceJs).length
  let r := t.drop w
  if r ≠ [] then
    if r.any isLineTerm then none else some r
  else
    match t.getLast? with
    | none => none
    | some c => if isLineTerm c then none else some [c]

/-- First match of `/;\s*(.+)$/` against the character list: JS scans for
the leftmost position at which the whole pattern matches. -/
def firstSemiMatch : List Char → Option (List Char)
  | [] => none
  | c :: rest =>
    if c = ';' then
      match matchCapture rest with
      | some r => some r
      | none => firstSemiMatch rest
    else firstSemiMatch rest

/-- The text after the last `@` of an email address, when the regex
`/@([^@]+)$/` matches (the capture cannot span an `@`, so only the last
`@` with a non-empty tail qualifies). -/
def afterLastAt : List Char → Option (List Char)
  | [] => none
  | c :: rest =>
    match afterLastAt rest with
    | some t => some t
    | none => if c = '@' then some rest else none

/-- Embedding of `EmailProcessorService.extractDomain` (lines 244-247): capture of
`/@([^@]+)$/`, lower-cased; `''` when there is no match. -/
def extractDomain (email : String) : String :=
  match afterLastAt email.data with
  | some t => if t = [] then "" else jsToLower ⟨t⟩
  | none => ""

/-- Embedding of `EmailProcessorService.calculateTimeDelta` (lines 254-273):
`headers['received']` (falsy check: missing or empty), the `/;\s*(.+)$/`
match, then `new Date(match[1]).getTime() - message.date.getTime()` —
an unparsable date gives `NaN`, which propagates through the
subtraction. -/
def calculateTimeDelta (env : ClassifierEnv) (message : EmailMessage) :
    Option JsNum :=
  match jsLookup message.headers "received" with
  | none => none
  | some receivedHeader =>
    if receivedHeader = "" then none
    else
      match firstSemiMatch receivedHeader.data with
      | none => none
      | some dateChars =>
        match env.dateParse ⟨dateChars⟩ with
        | none => some JsNum.nan
        | some t => some (JsNum.val (t - message.date))

/-- The `espPatterns` object of `detectESP` (lines 287-304), in insertion
order. -/
def espPatterns : List (String × String) :=
  [("X-Mailgun-", "Mailgun"), ("X-Mandrill-", "Mandrill"),
   ("X-MC-", "Mailchimp"), ("X-Sendgrid-", "SendGrid"),
   ("X-SES-", "Amazon SES"), ("X-Postmark-", "Postmark"),
   ("X-Mailer: PHPMailer", "PHPMailer"),
   ("X-Mailer: Microsoft Outlook", "Microsoft Outlook"),
   ("X-Mailer: Apple Mail", "Apple Mail"),
   ("X-Mailer: Gmail", "Gmail"),
   ("X-Yahoo-Newman-", "Yahoo Mail"), ("X-Proofpoint-", "Proofpoint"),
   ("X-Forefront-", "Microsoft Exchange Online"),
   ("X-MS-Exchange-", "Microsoft Exchange"),
   ("X-Google-Smtp-Source", "Gmail"), ("X-Gm-Message-State", "Gmail")]

/-- The DKIM `d=` provider table of `detectESP` (lines 316-326), in source
order. -/
def dkimProviders : List (String × String) :=
  [("d=mailchimp.com", "Mailchimp"), ("d=sendgrid.com", "SendGrid"),
   ("d=amazonses.com", "Amazon SES"), ("d=mailgun.org", "Mailgun"),
   ("d=postmarkapp.com", "Postmark"), ("d=gmail.com", "Gmail"),
   ("d=yahoo.com", "Yahoo Mail"), ("d=outlook.com", "Microsoft Outlook")]

/-- The `Return-Path` provider table of `detectESP` (lines 329-336). -/
def returnPathProviders : List (String × String) :=
  [("amazonses.com", "Amazon SES"), ("sendgrid.net", "SendGrid"),
   ("mailgun.org", "Mailgun"), ("mailchimp.com", "Mailchimp"),
   ("postmarkapp.com", "Postmark")]

/-- The SPF `include:` provider table of `detectESP` (lines 344-349). -/
def spfProviders : List (String × String) :=
  [("include:amazonses.com", "Amazon SES"),
   ("include:sendgrid.net", "SendGrid"),
   ("include:mailgun.org", "Mailgun"),
   ("include:spf.mandrillapp.com", "Mandrill"),
   ("include:servers.mcsv.net", "Mailchimp"),
   ("include:spf.protection.outlook.com", "Microsoft Exchange Online")]

/-- Embedding of `EmailProcessorService.detectESP` (lines 281-362), in the source's
priority order: header-name/value substring patterns, `DKIM-Signature`
`d=` table, `Return-Path` table, SPF TXT `include:` table (DNS errors
ignored); `undefined` when nothing matches. -/
def detectESP (env : ClassifierEnv) (headers : List (String × String))
    (domain : String) : Option String :=
  match espPatterns.findSome? (fun pat =>
    if headers.any (fun h =>
        jsIncludes h.1 pat.1 || (h.2 ≠ "" && jsIncludes h.2 pat.1)) then
      some pat.2
    else none) with
  | some esp => some esp
  | none =>
    match (jsLookup headers "dkim-signature").bind (fun dkimHeader =>
      if dkimHeader = "" then none
      else dkimProviders.findSome? (fun p =>
        if jsIncludes dkimHeader p.1 then some p.2 else none)) with
    | some esp => some esp
    | none =>
      match (jsLookup headers "return-path").bind (fun returnPath =>
        if returnPath = "" then none
        else returnPathProviders.findSome? (fun p =>
          if jsIncludes returnPath p.1 then some p.2 else none)) with
      | some esp => some esp
      | none =>
        match env.dnsTxt domain with
        | .error _ => none
        | .ok txtRecords =>
          txtRecords.findSome? (fun record =>
            let spfRecord := jsToLower (String.join record)
            if jsStartsWith spfRecord "v=spf1" then
              spfProviders.findSome? (fun p =>
                if jsIncludes spfRecord p.1 then some p.2 else none)
            else none)

/-- Embedding of `EmailProcessorService.checkOpenRelay` (lines 369-411): `undefined` on
MX failure or an empty MX set; otherwise the socket promise resolves
`false` on connect, error and timeout alike. -/
def checkOpenRelay (env : ClassifierEnv) (domain : String) : Option Bool :=
  match env.mx domain with
  | .error _ => none
  | .ok [] => none
  | .ok (_ :: _) => some false

/-- Embedding of `EmailProcessorService.checkTlsSupport` (lines 418-474): `(undefined,
undefined)` on MX failure or empty MX set; else per the 465/587 probe
outcome. -/
def checkTlsSupport (env : ClassifierEnv) (domain : String) :
    Option Bool × Option Bool :=
  match env.mx domain with
  | .error _ => (none, none)
  | .ok [] => (none, none)
  | .ok (_ :: _) =>
    match env.tlsOutcome domain with
    | .secure authorized => (some true, some authorized)
    | .starttlsReachable => (some true, none)
    | .unreachable => (some false, none)
    | .probeTimeout => (none, none)

/-- The `try` block of `processEmail` (lines 186-227).  `message.from[0]`
on an `undefined` `from` throws a `TypeError`; `indexEmailForSearch` has
its own internal `try/catch` and never throws (and does not contribute to
the returned record), and `emailAnalyticsModel.create` runs only when a
`userId` was supplied. -/
def processEmailTry (env : ClassifierEnv) (message : EmailMessage)
    (userId connectionId : Option String) : Except JsErr EmailAnalytics :=
  match message.fromAddrs with
  | none => Except.error JsErr.typeError
  | some fromList =>
    let sender := ((fromList.head?).map (fun a => a.address)).getD ""
    let senderDomain := extractDomain sender
    let timeDelta := calculateTimeDelta env message
    let esp := detectESP env message.headers senderDomain
    let openRelay := checkOpenRelay env senderDomain
    let tls := checkTlsSupport env senderDomain
    let analytics : EmailAnalytics :=
      { messageId := some message.messageId, sender := sender,
        senderDomain := senderDomain, esp := esp, timeDelta := timeDelta,
        openRelay := openRelay, tlsSupport := tls.1,
        validCertificate := tls.2, userId := userId,
        connectionId := connectionId }
    if userId.isSome then
      match env.dbCreate with
      | .error _ => Except.error JsErr.dbError
      | .ok _ => Except.ok analytics
    else Except.ok analytics

/-- The `catch` block of `processEmail` (lines 228-236): it evaluates
`message.from[0]?.address || ''` *again*, so for an `undefined` `from` the
handler itself throws; otherwise it returns the partial record with only
`sender` and `senderDomain` populated. -/
def processEmailCatch (message : EmailMessage) : Except JsErr EmailAnalytics :=
  match message.fromAddrs with
  | none => Except.error JsErr.typeError
  | some fromList =>
    let sender := ((fromList.head?).map (fun a => a.address)).getD ""
    Except.ok
      { messageId := none, sender := sender,
        senderDomain := extractDomain sender, esp := none, timeDelta := none,
        openRelay := none, tlsSupport := none, validCertificate := none,
        userId := none, connectionId := none }

/-- Embedding of `EmailProcessorService.processEmail` (lines 180-237): the `try` block,
with failures routed through the `catch` block. -/
def processEmail (env : ClassifierEnv) (message : EmailMessage)
    (userId connectionId : Option String) : Except JsErr EmailAnalytics :=
  match processEmailTry env message userId connectionId with
  | .ok a => Except.ok a
  | .error _ => processEmailCatch message

/-! ## Concrete example inputs used by the theorems below -/

/-- An adapter whose `addBox` always succeeds. -/
def alwaysOk : String → Except String Unit := fun _ => Except.ok ()

/-- An adapter whose `addBox` fails exactly on the folder `"A"`. -/
def failOnA : String → Except String Unit :=
  fun p => if p = "A" then Except.error "boom" else Except.ok ()

/-- A flat folder record whose path is its name. -/
def flatFolder (p : String) : ImapFolder :=
  { name := p, path := p, delimiter := "/", attribs := [] }

/-- A boxes tree with root `P` and child `A*B` (raw name containing `*`). -/
def exBoxes : List BoxTree :=
  [BoxTree.node "P" [] (some [BoxTree.node "A*B" [] none])]

/-- A classifier environment whose DNS and probes fail and whose `Date`
parser rejects every string (models `new Date` on unparsable tokens). -/
def envX : ClassifierEnv :=
  { dateParse := fun _ => none, dnsTxt := fun _ => Except.error "etimeout",
    mx := fun _ => Except.error "enotfound",
    tlsOutcome := fun _ => TlsOutcome.probeTimeout,
    dbCreate := Except.ok () }

/-- A message object whose `from` property is `undefined`. -/
def msgNoFrom : EmailMessage :=
  { headers := [], date := 0, messageId := "", fromAddrs := none }

/-- A message whose `Received` header has a `;` but an unparsable date
token. -/
def msgBadDate : EmailMessage :=
  { headers := [("received", "from relay.example by mx.example; not a date")],
    date := 0, messageId := "m2",
    fromAddrs := some [{ name := "", address := "a@b.example" }] }

/-- A valid connection config. -/
def cfgOk : ImapConnectionConfig :=
  { user := some "u", password := some "p", host := some "imap.example",
    port := some 993 }

/-- A config whose `password` is missing. -/
def cfgNoPassword : ImapConnectionConfig :=
  { user := some "u", password := none, host := some "imap.example",
    port := some 993 }

/-- Spec-side notion for C4: the path depth in segments (`p.split('/')
.length`) for `/`-delimited paths. -/
def segmentDepth (p : String) : Nat :=
  p.data.count '/' + 1

/-- Spec-side notion for C9: the path the parser records for a box named
`name` under `parentPath` (`parentPath ? parentPath + delimiter + name :
name`). -/
def joinPath (parentPath delimiter name : String) : String :=
  if parentPath ≠ "" then parentPath ++ delimiter ++ name else name

/-- A pool at capacity: 20 connected entries with `lastActivity` `0..19`. -/
def fullPool : PoolState :=
  { connections := List.range 20,
    connectionStatus := (List.range 20).map (fun i =>
      (i, { host := "imap.example", port := 993, user := "u",
            state := ConnLife.connected, lastActivity := i })),
    connectionPriorityQueue := List.range 20,
    pendingEnd := [] }

/-! # Theorems -/

/-! ## Helper lemmas -/

theorem sanitizeChars_append (l₁ l₂ : List Char) :
    sanitizeChars (l₁ ++ l₂) = sanitizeChars l₁ ++ sanitizeChars l₂ := by
  simp [sanitizeChars, replaceAllChar]

theorem sanitizeChars_single (c : Char) :
    sanitizeChars [c] = [sanitizeChar c] := by
  by_cases h1 : c = '/'
  · subst h1; decide
  by_cases h2 : c = '\\'
  · subst h2; decide
  by_cases h3 : c = '*'
  · subst h3; decide
  by_cases h4 : c = '?'
  · subst h4; decide
  by_cases h5 : c = '"'
  · subst h5; decide
  by_cases h6 : c = '<'
  · subst h6; decide
  by_cases h7 : c = '>'
  · subst h7; decide
  by_cases h8 : c = '|'
  · subst h8; decide
  simp [sanitizeChars, replaceAllChar, sanitizeChar, h1, h2, h3, h4, h5, h6,
    h7, h8]

theorem sanitizeChars_eq_map (s : List Char) :
    sanitizeChars s = s.map sanitizeChar := by
  induction s with
  | nil => rfl
  | cons c cs ih =>
    have : c :: cs = [c] ++ cs := rfl
    rw [this, sanitizeChars_append, sanitizeChars_single, List.map_append,
      ih]
    rfl

theorem sanitizeChar_idem (c : Char) :
    sanitizeChar (sanitizeChar c) = sanitizeChar c := by
  by_cases h1 : c = '/'
  · subst h1; decide
  by_cases h2 : c = '\\'
  · subst h2; decide
  by_cases h3 : c = '*'
  · subst h3; decide
  by_cases h4 : c = '?'
  · subst h4; decide
  by_cases h5 : c = '"'
  · subst h5; decide
  by_cases h6 : c = '<'
  · subst h6; decide
  by_cases h7 : c = '>'
  · subst h7; decide
  by_cases h8 : c = '|'
  · subst h8; decide
  have hc : sanitizeChar c = c := by
    simp [sanitizeChar, h1, h2, h3, h4, h5, h6, h7, h8]
  rw [hc, hc]

/-- C8 claim, part 1 statement helper: `sanitizeFolderName` as a character
map. -/
theorem sanitizeFolderName_eq_map (s : String) :
    sanitizeFolderName s = ⟨s.data.map sanitizeChar⟩ := by
  unfold sanitizeFolderName
  rw [sanitizeChars_eq_map]

/-- C8: `sanitizeFolderName` is the pure per-character substitution
`sanitizeChar` (`/`,`\` → `-`; `*`,`?`,`|` → `_`; `"` → apostrophe;
`<` → `(`; `>` → `)`; all other characters unchanged), it maps
`"A/B*C"` to `"A-B_C"`, and it is idempotent. -/
theorem C8_sanitize_pure_idempotent :
    (∀ s : String, sanitizeFolderName s = ⟨s.data.map sanitizeChar⟩) ∧
    sanitizeFolderName "A/B*C" = "A-B_C" ∧
    (∀ s : String,
      sanitizeFolderName (sanitizeFolderName s) = sanitizeFolderName s) := by
  refine ⟨sanitizeFolderName_eq_map, by decide, fun s => ?_⟩
  rw [sanitizeFolderName_eq_map, sanitizeFolderName_eq_map s]
  show String.mk _ = _
  rw [List.map_map]
  refine congrArg _ (List.map_congr_left fun c _ => ?_)
  exact sanitizeChar_idem c

/-- Membership after one `copyMessageWithFlags`: a message of the result
either was already stored or is the freshly appended header block. -/
theorem copyMessageWithFlags_mem (d : List StoredMessage)
    (fm : FetchedMessage) (m : StoredMessage)
    (hm : m ∈ copyMessageWithFlags d fm) :
    m ∈ d ∨ m.content = fm.headers := by
  unfold copyMessageWithFlags at hm
  dsimp only at hm
  split at hm
  · exact Or.inl hm
  · rcases List.mem_append.mp hm with h | h
    · exact Or.inl h
    · rcases List.mem_singleton.mp h with rfl
      exact Or.inr rfl

/-- The copy step `copyMessageWithFlags` is a no-op when the candidate's header block is
already stored. -/
theorem copyMessageWithFlags_of_mem (d : List StoredMessage)
    (fm : FetchedMessage)
    (h : fm.headers ∈ d.map StoredMessage.content) :
    copyMessageWithFlags d fm = d := by
  unfold copyMessageWithFlags
  dsimp only
  rw [if_pos]
  rw [List.any_eq_true]
  rcases List.mem_map.mp h with ⟨x, hx, hcontent⟩
  exact ⟨x.content, List.mem_map_of_mem _ hx, by simp [hcontent]⟩

/-- C5: `copyMessageWithFlags` skips (no append, no error) when an existing
destination message has an `===`-equal raw header block; it is idempotent;
and transferring the same message twice into a folder that did not contain
its header block stores exactly one copy. -/
theorem C5_transfer_idempotent (destFolder : List StoredMessage)
    (message : FetchedMessage) :
    (message.headers ∈ destFolder.map StoredMessage.content →
      copyMessageWithFlags destFolder message = destFolder) ∧
    copyMessageWithFlags (copyMessageWithFlags destFolder message) message =
      copyMessageWithFlags destFolder message ∧
    ((destFolder.map StoredMessage.content).count message.headers = 0 →
      ((copyMessageWithFlags (copyMessageWithFlags destFolder message)
          message).map StoredMessage.content).count message.headers = 1) := by
  have hcopy : message.headers ∉ destFolder.map StoredMessage.content →
      copyMessageWithFlags destFolder message =
        appendMessage destFolder message.headers message.flags
          message.date := by
    intro h
    unfold copyMessageWithFlags
    dsimp only
    rw [if_neg]
    rw [List.any_eq_true]
    rintro ⟨e, he, heq⟩
    exact h (eq_of_beq heq ▸ he)
  refine ⟨copyMessageWithFlags_of_mem destFolder message, ?_, ?_⟩
  · by_cases h : message.headers ∈ destFolder.map StoredMessage.content
    · rw [copyMessageWithFlags_of_mem destFolder message h,
        copyMessageWithFlags_of_mem destFolder message h]
    · rw [hcopy h]
      exact copyMessageWithFlags_of_mem _ _ (by simp [appendMessage])
  · intro hcount
    have h : message.headers ∉ destFolder.map StoredMessage.content :=
      List.count_eq_zero.mp hcount
    rw [copyMessageWithFlags_of_mem _ _ (by rw [hcopy h]; simp [appendMessage]),
      hcopy h]
    simp [appendMessage, hcount]

/-- C5 witness: transferring the message with header block `"H"` twice
into an empty folder stores exactly one copy. -/
theorem C5_transfer_idempotent_witness :
    (([] : List StoredMessage).map StoredMessage.content).count "H" = 0 ∧
    ((copyMessageWithFlags
        (copyMessageWithFlags []
          { headers := "H", flags := ["\\Seen"], date := 7 })
        { headers := "H", flags := ["\\Seen"], date := 7 }).map
      StoredMessage.content).count "H" = 1 :=
  ⟨rfl, (C5_transfer_idempotent []
    { headers := "H", flags := ["\\Seen"], date := 7 }).2.2 rfl⟩

/-- C10: every message present in the destination after
`syncFolderMessages` either was already there, or its entire stored
content is the raw header block of some source message — the body block
of a source message is never written. -/
theorem C10_header_only_transfer (sourceFolder : List RawMessage)
    (destFolder : List StoredMessage) (m : StoredMessage)
    (hm : m ∈ syncFolderMessages sourceFolder destFolder) :
    m ∈ destFolder ∨ ∃ r ∈ sourceFolder, m.content = r.headerBlock := by
  induction sourceFolder generalizing destFolder with
  | nil =>
    exact Or.inl (by simpa [syncFolderMessages, fetchHeaderMessages] using hm)
  | cons x xs ih =>
    have hm' : m ∈ syncFolderMessages xs
        (copyMessageWithFlags destFolder
          { headers := x.headerBlock, flags := x.flags, date := x.date }) := by
      simpa [syncFolderMessages, fetchHeaderMessages] using hm
    rcases ih _ hm' with h | ⟨r, hr, hc⟩
    · rcases copyMessageWithFlags_mem _ _ _ h with h' | h'
      · exact Or.inl h'
      · exact Or.inr ⟨x, List.mem_cons_self x xs, h'⟩
    · exact Or.inr ⟨r, List.mem_cons_of_mem x hr, hc⟩

/-- C10 witness: syncing a source message with header block `"H: v"` and
body `"BODY"` into an empty destination stores content `"H: v"` — the
header block, not the body. -/
theorem C10_header_only_transfer_witness :
    (⟨"H: v", [], 3⟩ : StoredMessage) ∈
      syncFolderMessages [(⟨"H: v", "BODY", [], 3⟩ : RawMessage)] [] ∧
    ((⟨"H: v", [], 3⟩ : StoredMessage) ∈ ([] : List StoredMessage) ∨
      ∃ r ∈ [(⟨"H: v", "BODY", [], 3⟩ : RawMessage)],
        (⟨"H: v", [], 3⟩ : StoredMessage).content = r.headerBlock) :=
  ⟨by decide, C10_header_only_transfer _ _ _ (by decide)⟩

/-- C7: for every connection config with a missing `user`,
`password`, `host` or `port`, `createConnection` fails with the
invalid-configuration error, the pool state is returned unchanged, and the
result does not depend on the network oracle (no network attempt). -/
theorem C7_invalid_config_rejected (config : ImapConnectionConfig)
    (newId now : Nat) (connectOk : Bool) (s : PoolState)
    (h : config.user = none ∨ config.password = none ∨
      config.host = none ∨ config.port = none) :
    createConnection config newId now connectOk s =
      (Except.error PoolErr.invalidConfig, s) := by
  have hinv : configInvalid config = true := by
    rcases h with h | h | h | h <;> simp [configInvalid, h]
  unfold createConnection
  rw [if_pos hinv]

/-- C7 witness: a config with a missing password is rejected on a
concrete pool without touching it. -/
theorem C7_invalid_config_rejected_witness :
    cfgNoPassword.password = none ∧
    createConnection cfgNoPassword 21 99 true fullPool =
      (Except.error PoolErr.invalidConfig, fullPool) :=
  ⟨rfl, C7_invalid_config_rejected cfgNoPassword 21 99 true fullPool
    (Or.inr (Or.inl rfl))⟩

/-- C2 (code bug): `processEmail` is *not* total on messages with a
missing `from` list — the `catch` handler itself dereferences
`message.from[0]`, so the call throws a `TypeError` instead of returning a
partial classification; and for a `Received` header whose date token does
not parse, `timeDelta` is `NaN` (the `getTime()` of an `Invalid Date`
propagated through the subtraction), not `undefined` — while every other
field of that record is still computed. -/
theorem C2_processEmail_bug :
    processEmail envX msgNoFrom none none = Except.error JsErr.typeError ∧
    calculateTimeDelta envX msgBadDate = some JsNum.nan ∧
    processEmail envX msgBadDate none none = Except.ok
      { messageId := some "m2", sender := "a@b.example",
        senderDomain := "b.example", esp := none,
        timeDelta := some JsNum.nan, openRelay := none, tlsSupport := none,
        validCertificate := none, userId := none, connectionId := none } :=
  ⟨rfl, rfl, rfl⟩

/-- C9 counterexample: for the boxes tree with root `P` and child raw name
`A*B`, the parsed hierarchy records the child path `P/A*B`, built from the
**raw** name, while the claim's `parent.path + delimiter +
sanitize(rawName)` would be `P/A_B` — sanitization is applied to the
`name` field only. -/
theorem C9_counterexample :
    (parseFolderHierarchy exBoxes "" "/").map ImapFolder.path =
      ["P", "P/A*B"] ∧
    (parseFolderHierarchy exBoxes "" "/").map ImapFolder.name =
      ["P", "A_B"] ∧
    joinPath "P" "/" (sanitizeFolderName "A*B") ≠ "P/A*B" :=
  ⟨rfl, rfl, by decide⟩

/-- C4 counterexample: `createMissingFolders` sorts by path **string
length**, not by segment count — it creates `AB/C` (2 segments, length 4)
before `ABCDE` (1 segment, length 5); and in the claim's own scenario
(source `INBOX`, `INBOX/Work`; destination `INBOX`) it creates only
`INBOX/Work`, not `INBOX` then `INBOX/Work`. -/
theorem C4_counterexample :
    (createMissingFolders alwaysOk [flatFolder "AB/C", flatFolder "ABCDE"]
        []).map Prod.fst = ["AB/C", "ABCDE"] ∧
    segmentDepth "AB/C" = 2 ∧ segmentDepth "ABCDE" = 1 ∧
    (createMissingFolders alwaysOk
        [flatFolder "INBOX", flatFolder "INBOX/Work"]
        [flatFolder "INBOX"]).map Prod.fst = ["INBOX/Work"] :=
  ⟨rfl, rfl, rfl, rfl⟩

/-- C6 counterexample: in `ImapSyncService.createMissingFolders`, one
failing `addBox` (folder `A`) rejects the whole call: the remaining
missing folder `B` is never created, although it is missing — while
`FolderSyncService.createMissingFolders` on the same input attempts both.
-/
theorem C6_counterexample :
    imapCreateMissingFolders failOnA
      [FolderNode.node "A" [], FolderNode.node "B" []] [] =
      ([], some "boom") ∧
    imapMissingPaths [FolderNode.node "A" [], FolderNode.node "B" []] [] =
      ["A", "B"] ∧
    (createMissingFolders failOnA [flatFolder "A", flatFolder "B"] []).map
      Prod.fst = ["A", "B"] :=
  ⟨rfl, rfl, rfl⟩

/-- C3 counterexample: a valid `createConnection` on a pool at capacity
admits the new entry immediately but only *initiates* the eviction
(`closeConnection` deletes the entry when the `'end'` event later fires),
so right after the call the pool holds `MAX_CONNECTIONS + 1` entries and
the chosen victim (id `0`, the oldest `lastActivity`) is still present. -/
theorem C3_counterexample :
    fullPool.connections.length = MAX_CONNECTIONS ∧
    (createConnection cfgOk 100 50 true fullPool).2.connections.length =
      MAX_CONNECTIONS + 1 ∧
    (createConnection cfgOk 100 50 true fullPool).2.connections.contains 0 =
      true ∧
    (createConnection cfgOk 100 50 true fullPool).2.pendingEnd = [0] :=
  ⟨rfl, rfl, rfl, rfl⟩

/-- C1 counterexample: one folder `F` with two messages, cancellation
landing after the first append (`cancelAt = 1`): the per-message
checkpoint observes the cancellation, yet the orchestrator still emits a
`sync:progress` event (and, as `F` was the last folder, `sync:completed`)
*after* that checkpoint — `sync:progress` is one of the events the claim
says can no longer be emitted. -/
theorem C1_counterexample :
    syncProcess 1 [("F", 2)] =
      [SyncEv.folderStart "F", SyncEv.folderProgress "F" 50,
       SyncEv.cancelObservedMessage "F", SyncEv.syncProgress 100 "F",
       SyncEv.syncCompleted 1 1] ∧
    afterFirstMarker (syncProcess 1 [("F", 2)]) =
      some [SyncEv.syncProgress 100 "F", SyncEv.syncCompleted 1 1] :=
  ⟨rfl, rfl⟩

mutual

theorem parseFolderHierarchy_raw (boxes : List BoxTree)
    (parentPath delimiter : String) :
    ∀ f ∈ parseFolderHierarchy boxes parentPath delimiter,
      ∃ raw, f.name = sanitizeFolderName raw ∧
        (f.path = joinPath parentPath delimiter raw ∨
          ∃ g ∈ parseFolderHierarchy boxes parentPath delimiter,
            f.path = joinPath g.path delimiter raw) := by
  match boxes with
  | [] => intro f hf; simp [parseFolderHierarchy] at hf
  | b :: rest =>
    intro f hf
    rw [parseFolderHierarchy] at hf
    rcases List.mem_append.mp hf with h | h
    · obtain ⟨raw, hname, hpath⟩ :=
        parseFolderBox_raw b parentPath delimiter f h
      refine ⟨raw, hname, ?_⟩
      rcases hpath with h' | ⟨g, hg, h'⟩
      · exact Or.inl h'
      · refine Or.inr ⟨g, ?_, h'⟩
        rw [parseFolderHierarchy]
        exact List.mem_append_left _ hg
    · obtain ⟨raw, hname, hpath⟩ :=
        parseFolderHierarchy_raw rest parentPath delimiter f h
      refine ⟨raw, hname, ?_⟩
      rcases hpath with h' | ⟨g, hg, h'⟩
      · exact Or.inl h'
      · refine Or.inr ⟨g, ?_, h'⟩
        rw [parseFolderHierarchy]
        exact List.mem_append_right _ hg

theorem parseFolderBox_raw (b : BoxTree) (parentPath delimiter : String) :
    ∀ f ∈ parseFolderBox b parentPath delimiter,
      ∃ raw, f.name = sanitizeFolderName raw ∧
        (f.path = joinPath parentPath delimiter raw ∨
          ∃ g ∈ parseFolderBox b parentPath delimiter,
            f.path = joinPath g.path delimiter raw) := by
  match b with
  | .node name attribs children =>
    intro f hf
    rw [parseFolderBox.eq_def] at hf
    rcases List.mem_cons.mp hf with hfe | h
    · subst hfe
      exact ⟨name, rfl, Or.inl rfl⟩
    · cases children with
      | none => simp at h
      | some cs =>
        obtain ⟨raw, hname, hpath⟩ := parseFolderHierarchy_raw cs
          (if parentPath ≠ "" then parentPath ++ delimiter ++ name
            else name) delimiter f h
        refine ⟨raw, hname, Or.inr ?_⟩
        rcases hpath with h' | ⟨g, hg, h'⟩
        · refine ⟨⟨sanitizeFolderName name,
            (if parentPath ≠ "" then parentPath ++ delimiter ++ name
              else name), delimiter, attribs⟩, ?_, h'⟩
          rw [parseFolderBox.eq_def]
          exact List.mem_cons_self _ _
        · refine ⟨g, ?_, h'⟩
          rw [parseFolderBox.eq_def]
          exact List.mem_cons_of_mem _ hg

end

/-- C9 amended: sanitization is applied to the reported folder *name*
field only, while the recorded `path` is built from **raw** name segments:
every parsed folder's name is `sanitizeFolderName` of some raw box name
`raw`, and its path extends either the given parent path or the path of a
folder of the same parse output (its parent box) by the raw `raw` — not
by `sanitizeFolderName raw`. -/
theorem C9_amended_paths_from_raw_names (boxes : List BoxTree)
    (parentPath delimiter : String) (f : ImapFolder)
    (hf : f ∈ parseFolderHierarchy boxes parentPath delimiter) :
    ∃ raw, f.name = sanitizeFolderName raw ∧
      (f.path = joinPath parentPath delimiter raw ∨
        ∃ g ∈ parseFolderHierarchy boxes parentPath delimiter,
          f.path = joinPath g.path delimiter raw) :=
  parseFolderHierarchy_raw boxes parentPath delimiter f hf

/-- C9 amended witness: the child folder of the `exBoxes` tree. -/
theorem C9_amended_witness :
    (⟨"A_B", "P/A*B", "/", []⟩ : ImapFolder) ∈
      parseFolderHierarchy exBoxes "" "/" ∧
    ∃ raw, (⟨"A_B", "P/A*B", "/", []⟩ : ImapFolder).name =
        sanitizeFolderName raw ∧
      ((⟨"A_B", "P/A*B", "/", []⟩ : ImapFolder).path =
          joinPath "" "/" raw ∨
        ∃ g ∈ parseFolderHierarchy exBoxes "" "/",
          (⟨"A_B", "P/A*B", "/", []⟩ : ImapFolder).path =
            joinPath g.path "/" raw) :=
  ⟨by decide,
   C9_amended_paths_from_raw_names exBoxes "" "/" _ (by decide)⟩

/-- Characterization of `createMissingFolders`: it attempts exactly the
length-sorted source folders whose paths are absent from the destination,
in order, each with its own `addBox` outcome. -/
theorem createAttempts_foldr (addBox : String → Except String Unit)
    (destPaths : List String) (l : List ImapFolder) :
    l.foldr
      (fun folder acc =>
        if destPaths.contains folder.path then acc
        else (folder.path, addBox folder.path) :: acc) [] =
      (l.filter (fun f => ! destPaths.contains f.path)).map
        (fun f => (f.path, addBox f.path)) := by
  induction l with
  | nil => rfl
  | cons a l ih =>
    rw [List.foldr_cons, ih, List.filter_cons]
    cases hc : destPaths.contains a.path with
    | true =>
      simp only [hc, Bool.not_true, if_true]
      rw [if_neg (by decide : ¬ (false = true))]
    | false =>
      simp only [hc, Bool.not_false]
      rw [if_neg (by decide : ¬ (false = true)), if_pos trivial,
        List.map_cons]

theorem createMissingFolders_eq (addBox : String → Except String Unit)
    (src dst : List ImapFolder) :
    createMissingFolders addBox src dst =
      ((sortByPathLength src).filter
        (fun f => ! (dst.map (fun g => g.path)).contains f.path)).map
        (fun f => (f.path, addBox f.path)) := by
  show (sortByPathLength src).foldr _ [] = _
  exact createAttempts_foldr addBox (dst.map (fun g => g.path))
    (sortByPathLength src)

/-- The attempted paths of `createMissingFolders` are pairwise sorted by
string length. -/
theorem createMissingFolders_sorted (addBox : String → Except String Unit)
    (src dst : List ImapFolder) :
    ((createMissingFolders addBox src dst).map Prod.fst).Pairwise
      (fun a b => a.length ≤ b.length) := by
  rw [createMissingFolders_eq]
  rw [List.map_map]
  have hsorted : (sortByPathLength src).Pairwise pathLenLe :=
    List.sorted_insertionSort pathLenLe src
  have hfilter := hsorted.sublist
    (List.filter_sublist (l := sortByPathLength src)
      (p := fun f => ! (dst.map (fun g => g.path)).contains f.path))
  rw [List.pairwise_map]
  exact hfilter.imp (fun h => h)

/-- C4 amended: `createMissingFolders` attempts exactly the source paths
absent from the destination, ordered by a **stable sort on path string
length** (not segment count); consequently in the attempted order no path
is followed by a strictly shorter one, so a parent folder (whose path is a
proper prefix of its child's, hence strictly shorter) is always created
before any of its children; and for the claim's scenario (source `INBOX`,
`INBOX/Work`, destination `INBOX`) it creates exactly `INBOX/Work`, after
which the destination holds both paths. -/
theorem C4_amended_creation_order :
    (∀ (addBox : String → Except String Unit) (src dst : List ImapFolder),
      (createMissingFolders addBox src dst).map Prod.fst =
        ((sortByPathLength src).filter
          (fun f => ! (dst.map (fun g => g.path)).contains f.path)).map
          (fun f => f.path)) ∧
    (∀ (addBox : String → Except String Unit) (src dst : List ImapFolder)
      (pre : List String) (p : String) (post : List String),
      (createMissingFolders addBox src dst).map Prod.fst =
        pre ++ p :: post → ∀ q ∈ post, p.length ≤ q.length) ∧
    (∀ (addBox : String → Except String Unit) (src dst : List ImapFolder)
      (pre : List String) (child : String) (post : List String)
      (parent : String) (t : String),
      (createMissingFolders addBox src dst).map Prod.fst =
        pre ++ child :: post → parent ∈ post →
      child = parent ++ t → t ≠ "" → False) ∧
    (∀ addBox : String → Except String Unit,
      (createMissingFolders addBox
        [flatFolder "INBOX", flatFolder "INBOX/Work"]
        [flatFolder "INBOX"]).map Prod.fst = ["INBOX/Work"]) := by
  have hsplit : ∀ (addBox : String → Except String Unit)
      (src dst : List ImapFolder) (pre : List String) (p : String)
      (post : List String),
      (createMissingFolders addBox src dst).map Prod.fst =
        pre ++ p :: post → ∀ q ∈ post, p.length ≤ q.length := by
    intro addBox src dst pre p post heq q hq
    have hp := createMissingFolders_sorted addBox src dst
    rw [heq] at hp
    exact (List.pairwise_cons.mp (List.pairwise_append.mp hp).2.1).1 q hq
  refine ⟨?_, hsplit, ?_, ?_⟩
  · intro addBox src dst
    rw [createMissingFolders_eq, List.map_map]
    rfl
  · intro addBox src dst pre child post parent t heq hmem hchild ht
    have hle := hsplit addBox src dst pre child post heq parent hmem
    have : parent.length < child.length := by
      rw [hchild, String.length_append]
      have : 0 < t.length := by
        cases t with
        | mk data =>
          cases data with
          | nil => exact absurd rfl ht
          | cons c cs => simp [String.length]
      omega
    omega
  · intro addBox
    rw [createMissingFolders_eq, List.map_map]
    rfl

/-- C4 amended witness: concrete instantiation of every hypothesis-bearing
conjunct of the amended theorem. -/
theorem C4_amended_creation_order_witness :
    ((createMissingFolders alwaysOk
        [flatFolder "AB", flatFolder "AB/C"] []).map Prod.fst =
      [] ++ "AB" :: ["AB/C"]) ∧
    "AB".length ≤ "AB/C".length ∧
    ((createMissingFolders alwaysOk
        [flatFolder "INBOX", flatFolder "INBOX/Work"]
        [flatFolder "INBOX"]).map Prod.fst = ["INBOX/Work"]) :=
  ⟨rfl,
   C4_amended_creation_order.2.1 alwaysOk
     [flatFolder "AB", flatFolder "AB/C"] [] [] "AB" ["AB/C"] rfl "AB/C"
     (List.mem_singleton.mpr rfl),
   C4_amended_creation_order.2.2.2 alwaysOk⟩

/-- When `imapCreateLoop` terminates with an error, the created paths are
the successful prefix of the missing list, the very next missing path is
the one whose `addBox` failed, and the rest of the batch was never
attempted. -/
theorem imapCreateLoop_error (addBox : String → Except String Unit)
    (missing : List String) (e : String)
    (he : (imapCreateLoop addBox missing).2 = some e) :
    ∃ p rest, missing = (imapCreateLoop addBox missing).1 ++ p :: rest ∧
      addBox p = Except.error e := by
  induction missing with
  | nil => exact absurd he (by simp [imapCreateLoop])
  | cons p rest ih =>
    rw [imapCreateLoop] at he ⊢
    split at he
    next e' heq =>
      obtain rfl : e' = e := by simpa using he
      exact ⟨p, rest, rfl, heq⟩
    next u heq =>
      obtain ⟨p', rest', hsplit, hfail⟩ := ih he
      refine ⟨p', rest', ?_, hfail⟩
      show p :: rest = (p :: (imapCreateLoop addBox rest).1) ++ p' :: rest'
      rw [List.cons_append, ← hsplit]

/-- C6 amended: in `FolderSyncService.createMissingFolders` every missing
folder's creation is attempted regardless of earlier failures (the
attempted paths do not depend on the `addBox` outcomes); but in
`ImapSyncService.createMissingFolders` the first `addBox` failure rejects
the whole call — the created folders are only the successful prefix of
the missing list, the failing path's rejection is surfaced, and the
remaining missing folders are never attempted. -/
theorem C6_amended_batch_behaviour :
    (∀ (addBox : String → Except String Unit) (src dst : List ImapFolder),
      (createMissingFolders addBox src dst).map Prod.fst =
        (createMissingFolders alwaysOk src dst).map Prod.fst) ∧
    (∀ (addBox : String → Except String Unit)
      (src dst : List FolderNode) (e : String),
      (imapCreateMissingFolders addBox src dst).2 = some e →
      ∃ p rest, imapMissingPaths src dst =
          (imapCreateMissingFolders addBox src dst).1 ++ p :: rest ∧
        addBox p = Except.error e) := by
  constructor
  · intro addBox src dst
    rw [createMissingFolders_eq, createMissingFolders_eq, List.map_map,
      List.map_map]
    rfl
  · intro addBox src dst e he
    exact imapCreateLoop_error addBox (imapMissingPaths src dst) e he

/-- C6 amended witness: with `addBox` failing on `A`, the imap-sync
variant creates nothing, surfaces the error, and never attempts `B`. -/
theorem C6_amended_batch_behaviour_witness :
    (imapCreateMissingFolders failOnA
        [FolderNode.node "A" [], FolderNode.node "B" []] []).2 =
      some "boom" ∧
    ∃ p rest,
      imapMissingPaths [FolderNode.node "A" [], FolderNode.node "B" []] [] =
        (imapCreateMissingFolders failOnA
          [FolderNode.node "A" [], FolderNode.node "B" []] []).1 ++
          p :: rest ∧
      failOnA p = Except.error "boom" :=
  ⟨rfl, C6_amended_batch_behaviour.2 failOnA
    [FolderNode.node "A" [], FolderNode.node "B" []] [] "boom" rfl⟩

/-! ### Pool lemmas for C3 -/

theorem findOldest_acc_mem (entries : List (Nat × ConnStatus))
    (acc : Option Nat × Nat) (id : Nat)
    (h : (entries.foldl
      (fun best p =>
        if p.2.lastActivity < best.2 then (some p.1, p.2.lastActivity)
        else best) acc).1 = some id) :
    acc.1 = some id ∨ id ∈ entries.map Prod.fst := by
  induction entries generalizing acc with
  | nil => exact Or.inl h
  | cons p rest ih =>
    rw [List.foldl_cons] at h
    rcases ih _ h with hacc | hmem
    · by_cases hlt : p.2.lastActivity < acc.2
      · rw [if_pos hlt] at hacc
        refine Or.inr ?_
        obtain rfl : p.1 = id := by simpa using hacc
        exact List.mem_map_of_mem Prod.fst (List.mem_cons_self p rest)
      · rw [if_neg hlt] at hacc
        exact Or.inl hacc
    · exact Or.inr (List.mem_cons_of_mem _ hmem)

theorem findOldest_mem (now : Nat) (entries : List (Nat × ConnStatus))
    (id : Nat) (h : findOldest now entries = some id) :
    id ∈ entries.map Prod.fst := by
  rcases findOldest_acc_mem entries (none, now) id h with hacc | hmem
  · exact absurd hacc (by simp)
  · exact hmem

theorem statusSet_keys (m : List (Nat × ConnStatus)) (id : Nat)
    (st : ConnStatus) (x : Nat)
    (hx : x ∈ (statusSet m id st).map Prod.fst) :
    x ∈ m.map Prod.fst ∨ x = id := by
  unfold statusSet at hx
  split at hx
  · rcases List.mem_map.mp hx with ⟨q, hq, rfl⟩
    rcases List.mem_map.mp hq with ⟨q', hq', rfl⟩
    by_cases h' : q'.1 = id
    · rw [if_pos h']
      exact Or.inr rfl
    · rw [if_neg h']
      exact Or.inl (List.mem_map_of_mem Prod.fst hq')
  · rcases List.mem_map.mp hx with ⟨q, hq, rfl⟩
    rcases List.mem_append.mp hq with h' | h'
    · exact Or.inl (List.mem_map_of_mem _ h')
    · rcases List.mem_singleton.mp h' with rfl
      exact Or.inr rfl

/-- Calling `closeOldestConnection` on a clean (no pending close) non-empty pool
whose status keys all live in the connections map: it initiates exactly
one close of a present entry, touching neither the `connections` nor the
`connectionStatus` maps. -/
theorem closeOldestConnection_initiates (now : Nat) (s : PoolState)
    (hpend : s.pendingEnd = [])
    (hkeys : ∀ id ∈ s.connectionStatus.map Prod.fst, id ∈ s.connections)
    (hne : s.connections ≠ []) :
    ∃ v ∈ s.connections,
      (closeOldestConnection now s).pendingEnd = [v] ∧
      (closeOldestConnection now s).connections = s.connections ∧
      (closeOldestConnection now s).connectionStatus =
        s.connectionStatus := by
  have hinit : ∀ v ∈ s.connections,
      (closeConnectionInit v s).pendingEnd = [v] ∧
      (closeConnectionInit v s).connections = s.connections ∧
      (closeConnectionInit v s).connectionStatus = s.connectionStatus := by
    intro v hv
    unfold closeConnectionInit
    rw [if_pos (List.elem_eq_true_of_mem hv)]
    rw [hpend]
    exact ⟨by simp, rfl, rfl⟩
  unfold closeOldestConnection
  cases hfind : findOldest now s.connectionStatus with
  | some oldestId =>
    have hv : oldestId ∈ s.connections :=
      hkeys oldestId (findOldest_mem now s.connectionStatus oldestId hfind)
    obtain ⟨h1, h2, h3⟩ := hinit oldestId hv
    exact ⟨oldestId, hv, h1, h2, h3⟩
  | none =>
    cases hhead : s.connections.head? with
    | none => exact absurd (List.head?_eq_none_iff.mp hhead) hne
    | some firstId =>
      have hv : firstId ∈ s.connections := by
        cases hcl : s.connections with
        | nil => rw [hcl] at hhead; simp at hhead
        | cons a l =>
          rw [hcl] at hhead
          obtain rfl : a = firstId := by simpa using hhead
          exact List.mem_cons_self _ _
      obtain ⟨h1, h2, h3⟩ := hinit firstId hv
      exact ⟨firstId, hv, h1, h2, h3⟩

/-- Effect of a valid `createConnection` on the `connections` map and the
pending closes: below capacity nothing is evicted; at or above capacity,
on a clean pool, exactly one close of a present entry is initiated before
the new entry is appended. -/
theorem createConnection_step (config : ImapConnectionConfig)
    (newId now : Nat) (connectOk : Bool) (s : PoolState)
    (hvalid : configInvalid config = false) :
    (MAX_CONNECTIONS ≤ s.connections.length → s.pendingEnd = [] →
      (∀ id ∈ s.connectionStatus.map Prod.fst, id ∈ s.connections) →
      ∃ v ∈ s.connections,
        (createConnection config newId now connectOk s).2.pendingEnd =
          [v] ∧
        (createConnection config newId now connectOk s).2.connections =
          s.connections ++ [newId]) ∧
    (s.connections.length < MAX_CONNECTIONS →
      (createConnection config newId now connectOk s).2.pendingEnd =
        s.pendingEnd ∧
      (createConnection config newId now connectOk s).2.connections =
        s.connections ++ [newId]) := by
  constructor
  · intro hcap hpend hkeys
    have hne : s.connections ≠ [] := by
      intro h
      rw [h] at hcap
      simp [MAX_CONNECTIONS] at hcap
    obtain ⟨v, hv, hp, hc, _hs⟩ :=
      closeOldestConnection_initiates now s hpend hkeys hne
    refine ⟨v, hv, ?_, ?_⟩
    · unfold createConnection
      rw [if_neg (by rw [hvalid]; exact Bool.false_ne_true)]
      rw [if_pos hcap]
      cases connectOk
      · show (closeOldestConnection now s).pendingEnd = [v]
        exact hp
      · show (closeOldestConnection now s).pendingEnd = [v]
        exact hp
    · unfold createConnection
      rw [if_neg (by rw [hvalid]; exact Bool.false_ne_true)]
      rw [if_pos hcap]
      cases connectOk
      · show (closeOldestConnection now s).connections ++ [newId] =
          s.connections ++ [newId]
        rw [hc]
      · show (closeOldestConnection now s).connections ++ [newId] =
          s.connections ++ [newId]
        rw [hc]
  · intro hcap
    unfold createConnection
    rw [if_neg (by rw [hvalid]; exact Bool.false_ne_true)]
    rw [if_neg (Nat.not_le.mpr hcap)]
    cases connectOk <;> exact ⟨rfl, rfl⟩

theorem closeOldestConnection_status (now : Nat) (s : PoolState) :
    (closeOldestConnection now s).connectionStatus = s.connectionStatus := by
  unfold closeOldestConnection closeConnectionInit
  cases findOldest now s.connectionStatus with
  | some oldestId =>
    dsimp only
    split <;> rfl
  | none =>
    dsimp only
    cases s.connections.head? with
    | some firstId =>
      dsimp only
      split <;> rfl
    | none => rfl

/-- The status keys after a `createConnection` are the old keys plus
possibly the new id. -/
theorem createConnection_status_keys (config : ImapConnectionConfig)
    (newId now : Nat) (connectOk : Bool) (s : PoolState)
    (hvalid : configInvalid config = false) (x : Nat)
    (hx : x ∈ ((createConnection config newId now connectOk
      s).2.connectionStatus).map Prod.fst) :
    x ∈ s.connectionStatus.map Prod.fst ∨ x = newId := by
  unfold createConnection at hx
  rw [if_neg (by rw [hvalid]; exact Bool.false_ne_true)] at hx
  have hstat : (if MAX_CONNECTIONS ≤ s.connections.length then
      closeOldestConnection now s else s).connectionStatus =
      s.connectionStatus := by
    split
    · exact closeOldestConnection_status now s
    · rfl
  cases connectOk with
  | true =>
    have hx' : x ∈ (statusSet (statusSet
        (if MAX_CONNECTIONS ≤ s.connections.length then
          closeOldestConnection now s else s).connectionStatus newId
        { host := config.host.getD "", port := config.port.getD 0,
          user := config.user.getD "", state := ConnLife.connecting,
          lastActivity := now }) newId
        { host := config.host.getD "", port := config.port.getD 0,
          user := config.user.getD "", state := ConnLife.connected,
          lastActivity := now }).map Prod.fst := hx
    rcases statusSet_keys _ _ _ _ hx' with h | h
    · rcases statusSet_keys _ _ _ _ h with h' | h'
      · exact Or.inl (hstat ▸ h')
      · exact Or.inr h'
    · exact Or.inr h
  | false =>
    have hx' : x ∈ (statusSet (statusSet
        (if MAX_CONNECTIONS ≤ s.connections.length then
          closeOldestConnection now s else s).connectionStatus newId
        { host := config.host.getD "", port := config.port.getD 0,
          user := config.user.getD "", state := ConnLife.connecting,
          lastActivity := now }) newId
        { host := config.host.getD "", port := config.port.getD 0,
          user := config.user.getD "", state := ConnLife.error,
          lastActivity := now }).map Prod.fst := hx
    rcases statusSet_keys _ _ _ _ hx' with h | h
    · rcases statusSet_keys _ _ _ _ h with h' | h'
      · exact Or.inl (hstat ▸ h')
      · exact Or.inr h'
    · exact Or.inr h

/-- One prompt `createConnection` call preserves `PoolClean`. -/
theorem promptCreate_clean (config : ImapConnectionConfig)
    (newId now : Nat) (connectOk : Bool) (s : PoolState)
    (hclean : PoolClean s) :
    PoolClean (flushPending
      (createConnection config newId now connectOk s).2) := by
  obtain ⟨hlen, hpend, hkeys⟩ := hclean
  cases hvalid : configInvalid config with
  | true =>
    have : createConnection config newId now connectOk s =
        (Except.error PoolErr.invalidConfig, s) := by
      unfold createConnection
      rw [if_pos hvalid]
    rw [this]
    show PoolClean (s.pendingEnd.foldl (fun st id => endEvent id st) s)
    rw [hpend]
    exact ⟨hlen, hpend, hkeys⟩
  | false =>
    have hkeys' := createConnection_status_keys config newId now connectOk
      s hvalid
    by_cases hcap : MAX_CONNECTIONS ≤ s.connections.length
    · obtain ⟨v, hv, hp, hc⟩ :=
        (createConnection_step config newId now connectOk s hvalid).1 hcap
          hpend hkeys
      set s' := (createConnection config newId now connectOk s).2 with hs'
      have hflush : flushPending s' = endEvent v s' := by
        show s'.pendingEnd.foldl (fun st id => endEvent id st) s' =
          endEvent v s'
        rw [hp]
        rfl
      rw [hflush]
      have hlenf : ((s.connections ++ [newId]).filter
          (fun c => ¬ c = v)).length ≤ MAX_CONNECTIONS := by
        rw [List.filter_append]
        have h1 : (s.connections.filter (fun c => ¬ c = v)).length <
            s.connections.length :=
          List.length_filter_lt_length_iff_exists.mpr ⟨v, hv, by simp⟩
        have h2 : (([newId] : List Nat).filter
            (fun c => ¬ c = v)).length ≤ 1 :=
          Nat.le_trans (List.length_filter_le _ _) (by simp)
        rw [List.length_append]
        omega
      refine ⟨?_, ?_, ?_⟩
      · show (s'.connections.filter (fun c => ¬ c = v)).length ≤
          MAX_CONNECTIONS
        rw [hc]
        exact hlenf
      · show s'.pendingEnd.filter (fun c => ¬ c = v) = []
        rw [hp]
        simp
      · intro x hx
        have hx' : x ∈ (s'.connectionStatus.filter
            (fun p => ¬ p.1 = v)).map Prod.fst := hx
        rcases List.mem_map.mp hx' with ⟨q, hq, rfl⟩
        rcases List.mem_filter.mp hq with ⟨hqmem, hqne⟩
        have hxv : ¬ q.1 = v := by simpa using hqne
        have hxin : q.1 ∈ s.connections ∨ q.1 = newId := by
          rcases hkeys' q.1 (List.mem_map_of_mem Prod.fst hqmem) with h | h
          · exact Or.inl (hkeys q.1 h)
          · exact Or.inr h
        show q.1 ∈ s'.connections.filter (fun c => ¬ c = v)
        rw [hc]
        rcases hxin with h | h
        · exact List.mem_filter.mpr
            ⟨List.mem_append_left _ h, by simpa using hxv⟩
        · exact List.mem_filter.mpr
            ⟨List.mem_append_right _ (h ▸ List.mem_singleton.mpr rfl),
             by simpa using hxv⟩
    · obtain ⟨hp, hc⟩ :=
        (createConnection_step config newId now connectOk s hvalid).2
          (Nat.lt_of_not_le hcap)
      set s' := (createConnection config newId now connectOk s).2 with hs'
      have hflush : flushPending s' = s' := by
        show s'.pendingEnd.foldl (fun st id => endEvent id st) s' = s'
        rw [hp, hpend]
        rfl
      rw [hflush]
      refine ⟨?_, by rw [hp, hpend], ?_⟩
      · rw [hc, List.length_append]
        have := Nat.lt_of_not_le hcap
        simp only [List.length_singleton]
        omega
      · intro x hx
        rw [hc]
        rcases hkeys' x hx with h | h
        · exact List.mem_append_left _ (hkeys x h)
        · exact List.mem_append_right _ (h ▸ List.mem_singleton.mpr rfl)

/-- Under the prompt-eviction schedule, any sequence of `createConnection`
calls keeps the pool clean. -/
theorem runCreates_clean (ops : List CreateOp) (s : PoolState)
    (nextId : Nat) (hclean : PoolClean s) :
    PoolClean (runCreates s nextId ops) := by
  induction ops generalizing s nextId with
  | nil => exact hclean
  | cons op rest ih =>
    exact ih _ _ (promptCreate_clean op.config nextId op.now op.connectOk
      s hclean)

/-- C3 amended: a `createConnection` on a full clean pool *initiates*
exactly one close — of an entry still present — and admits the new entry
immediately, so the entry count right after the call is `capacity + 1`;
the evicted entry leaves the maps only when its `'end'` event is
processed.  Under the prompt-eviction schedule (each initiated close's
`'end'` processed before the next call) the pool size never exceeds the
capacity. -/
theorem C3_amended_pool_bound :
    (∀ (config : ImapConnectionConfig) (newId now : Nat)
      (connectOk : Bool) (s : PoolState),
      configInvalid config = false →
      MAX_CONNECTIONS ≤ s.connections.length → s.pendingEnd = [] →
      (∀ id ∈ s.connectionStatus.map Prod.fst, id ∈ s.connections) →
      ∃ v ∈ s.connections,
        (createConnection config newId now connectOk s).2.pendingEnd =
          [v] ∧
        (createConnection config newId now connectOk s).2.connections =
          s.connections ++ [newId]) ∧
    (∀ ops : List CreateOp,
      (runCreates PoolState.empty 0 ops).connections.length ≤
        MAX_CONNECTIONS) := by
  constructor
  · intro config newId now connectOk s hvalid hcap hpend hkeys
    exact (createConnection_step config newId now connectOk s hvalid).1
      hcap hpend hkeys
  · intro ops
    exact (runCreates_clean ops PoolState.empty 0
      ⟨by simp [PoolState.empty, MAX_CONNECTIONS], rfl, by simp [PoolState.empty]⟩).1

/-- C3 amended witness: the full pool of 20 entries — one create admits
entry 20 and initiates the close of the oldest entry; and a singleton op
list keeps an empty pool within capacity. -/
theorem C3_amended_pool_bound_witness :
    (∃ v ∈ fullPool.connections,
      (createConnection cfgOk 100 50 true fullPool).2.pendingEnd = [v] ∧
      (createConnection cfgOk 100 50 true fullPool).2.connections =
        fullPool.connections ++ [100]) ∧
    (runCreates PoolState.empty 0
      [{ config := cfgOk, now := 5, connectOk := true }]).connections.length ≤
      MAX_CONNECTIONS :=
  ⟨C3_amended_pool_bound.1 cfgOk 100 50 true fullPool rfl
      (by decide) rfl (by decide),
   C3_amended_pool_bound.2
     [{ config := cfgOk, now := 5, connectOk := true }]⟩

/-! ### Cancellation lemmas for C1 -/

theorem afterFirstMarker_cons_marker (e : SyncEv) (l : List SyncEv)
    (he : e.isMarker = true) : afterFirstMarker (e :: l) = some l := by
  rw [afterFirstMarker, if_pos he]

theorem afterFirstMarker_cons_plain (e : SyncEv) (l : List SyncEv)
    (he : e.isMarker = false) :
    afterFirstMarker (e :: l) = afterFirstMarker l := by
  rw [afterFirstMarker, if_neg (by rw [he]; exact Bool.false_ne_true)]

theorem afterFirstMarker_append (l l' : List SyncEv)
    (hl : ∀ e ∈ l, e.isMarker = false) :
    afterFirstMarker (l ++ l') = afterFirstMarker l' := by
  induction l with
  | nil => rfl
  | cons e rest ih =>
    rw [List.cons_append,
      afterFirstMarker_cons_plain e _ (hl e (List.mem_cons_self e rest))]
    exact ih (fun x hx => hl x (List.mem_cons_of_mem e hx))

/-- Shape of the per-message loop's output: when it runs to completion it
emits only plain progress events; when a per-message checkpoint observes
the cancellation, the trace is plain progress events followed by the
single observation marker, and the final clock has passed `cancelAt`. -/
theorem syncFolderLoop_spec (cancelAt : Nat) (path : String)
    (total : Nat) (remaining i clock : Nat) :
    ((syncFolderLoop cancelAt path total remaining i clock).2.2 = false →
      ∀ e ∈ (syncFolderLoop cancelAt path total remaining i clock).1,
        e.isMarker = false) ∧
    ((syncFolderLoop cancelAt path total remaining i clock).2.2 = true →
      cancelAt ≤ (syncFolderLoop cancelAt path total remaining i clock).2.1 ∧
      ∃ evs, (syncFolderLoop cancelAt path total remaining i clock).1 =
          evs ++ [SyncEv.cancelObservedMessage path] ∧
        ∀ e ∈ evs, e.isMarker = false) := by
  induction remaining generalizing i clock with
  | zero =>
    refine ⟨fun _ e he => absurd he (by simp [syncFolderLoop]), ?_⟩
    intro h
    exact absurd h (by simp [syncFolderLoop])
  | succ rem ih =>
    rw [syncFolderLoop]
    by_cases hcanc : cancelAt ≤ clock
    · rw [if_pos hcanc]
      refine ⟨fun h => absurd h (by simp), fun _ => ⟨hcanc, [], rfl, ?_⟩⟩
      intro e he
      exact absurd he (List.not_mem_nil e)
    · rw [if_neg hcanc]
      obtain ⟨ihf, iht⟩ := ih (i + 1) (clock + 1)
      constructor
      · intro h e he
        rcases List.mem_cons.mp he with rfl | he'
        · rfl
        · exact ihf h e he'
      · intro h
        obtain ⟨hle, evs, heq, hfree⟩ := iht h
        refine ⟨hle,
          SyncEv.folderProgress path (jsRound100 (i + 1) total) :: evs,
          by rw [List.cons_append, ← heq], ?_⟩
        intro e he
        rcases List.mem_cons.mp he with rfl | he'
        · rfl
        · exact hfree e he'

/-- Shape of `syncFolder`'s trace, by the loop lemma: marker-free when the
folder completes; plain events then the single message-checkpoint marker
when canceled, with the clock past `cancelAt`. -/
theorem syncFolder_spec (cancelAt clock : Nat) (path : String)
    (total : Nat) :
    ((syncFolder cancelAt clock path total).2.2 = false →
      ∀ e ∈ (syncFolder cancelAt clock path total).1,
        e.isMarker = false) ∧
    ((syncFolder cancelAt clock path total).2.2 = true →
      cancelAt ≤ (syncFolder cancelAt clock path total).2.1 ∧
      ∃ evs, (syncFolder cancelAt clock path total).1 =
          evs ++ [SyncEv.cancelObservedMessage path] ∧
        ∀ e ∈ evs, e.isMarker = false) := by
  obtain ⟨hf, ht⟩ := syncFolderLoop_spec cancelAt path total total 0 clock
  unfold syncFolder
  constructor
  · intro h e he
    dsimp only at h he
    rw [h] at he
    rcases List.mem_cons.mp he with rfl | he'
    · rfl
    · rcases List.mem_append.mp he' with h'' | h''
      · exact hf h e h''
      · rcases List.mem_singleton.mp h'' with rfl
        rfl
  · intro h
    dsimp only at h ⊢
    obtain ⟨hle, evs, heq, hfree⟩ := ht h
    refine ⟨hle, SyncEv.folderStart path :: evs, ?_, ?_⟩
    · rw [h, heq]
      simp
    · intro e he
      rcases List.mem_cons.mp he with rfl | he'
      · rfl
      · exact hfree e he'

/-- After the first checkpoint marker of a `syncProcessLoop` trace: nothing
(per-folder observation), or exactly one task-level `sync:progress`
followed by the per-folder observation of the next iteration, or — when
the canceled folder was the last — one `sync:progress` and the
`sync:completed` event. -/
theorem syncProcessLoop_after_marker (cancelAt total : Nat)
    (folders : List (String × Nat)) (fp clock : Nat)
    (post : List SyncEv)
    (h : afterFirstMarker
      (syncProcessLoop cancelAt total folders fp clock) = some post) :
    post = [] ∨ ∃ pr cf,
      post = [SyncEv.syncProgress pr cf, SyncEv.cancelObservedFolder] ∨
      ∃ n t, post = [SyncEv.syncProgress pr cf, SyncEv.syncCompleted n t] := by
  induction folders generalizing fp clock post with
  | nil =>
    rw [syncProcessLoop] at h
    rw [afterFirstMarker_cons_plain (SyncEv.syncCompleted fp total) [] rfl]
      at h
    exact absurd h (by simp [afterFirstMarker])
  | cons f rest ih =>
    obtain ⟨path, msgs⟩ := f
    rw [syncProcessLoop] at h
    by_cases hcanc : cancelAt ≤ clock
    · rw [if_pos hcanc] at h
      rw [afterFirstMarker_cons_marker SyncEv.cancelObservedFolder [] rfl]
        at h
      obtain rfl : post = [] := by simpa using h.symm
      exact Or.inl rfl
    · rw [if_neg hcanc] at h
      dsimp only at h
      obtain ⟨hfalse, htrue⟩ := syncFolder_spec cancelAt clock path msgs
      cases hr : (syncFolder cancelAt clock path msgs).2.2 with
      | false =>
        rw [afterFirstMarker_append _ _ (hfalse hr)] at h
        rw [afterFirstMarker_cons_plain
          (SyncEv.syncProgress (jsRound100 (fp + 1) total) path) _ rfl] at h
        exact ih (fp + 1) (syncFolder cancelAt clock path msgs).2.1 post h
      | true =>
        obtain ⟨hle, evs, heq, hfree⟩ := htrue hr
        rw [heq, List.append_assoc] at h
        rw [afterFirstMarker_append _ _ hfree] at h
        rw [List.singleton_append] at h
        rw [afterFirstMarker_cons_marker
          (SyncEv.cancelObservedMessage path) _ rfl] at h
        cases rest with
        | nil =>
          rw [syncProcessLoop] at h
          obtain rfl := Option.some.inj h
          exact Or.inr ⟨jsRound100 (fp + 1) total, path, Or.inr
            ⟨fp + 1, total, rfl⟩⟩
        | cons f' rest' =>
          obtain ⟨path', msgs'⟩ := f'
          rw [syncProcessLoop, if_pos hle] at h
          obtain rfl := Option.some.inj h
          exact Or.inr ⟨jsRound100 (fp + 1) total, path, Or.inl rfl⟩

/-- C1 amended: cancellation is observed at the next per-folder or
per-message checkpoint; after a *per-folder* observation no further event
is emitted, while after a *per-message* observation the orchestrator still
emits exactly one task-level `sync:progress` for the canceled folder
(because `syncFolder` returns normally and `syncProcess` then increments
the counter and emits), followed by nothing but either the next per-folder
checkpoint's exit or — when the canceled folder was the last —
`sync:completed`.  In particular no `sync:folder:start`,
`sync:folder:progress` or `sync:folder:complete` is ever emitted after an
observation, but a `sync:progress` can be. -/
theorem C1_amended_cancel_events (cancelAt : Nat)
    (folders : List (String × Nat)) (post : List SyncEv)
    (h : afterFirstMarker (syncProcess cancelAt folders) = some post) :
    post = [] ∨ ∃ pr cf,
      post = [SyncEv.syncProgress pr cf, SyncEv.cancelObservedFolder] ∨
      ∃ n t, post = [SyncEv.syncProgress pr cf, SyncEv.syncCompleted n t] :=
  syncProcessLoop_after_marker cancelAt folders.length folders 0 0 post h

/-- C1 amended witness: the concrete canceled run of one folder with two
messages. -/
theorem C1_amended_cancel_events_witness :
    afterFirstMarker (syncProcess 1 [("F", 2)]) =
      some [SyncEv.syncProgress 100 "F", SyncEv.syncCompleted 1 1] ∧
    ([SyncEv.syncProgress 100 "F", SyncEv.syncCompleted 1 1] = [] ∨
      ∃ pr cf,
        [SyncEv.syncProgress 100 "F", SyncEv.syncCompleted 1 1] =
          [SyncEv.syncProgress pr cf, SyncEv.cancelObservedFolder] ∨
        ∃ n t, [SyncEv.syncProgress 100 "F", SyncEv.syncCompleted 1 1] =
          [SyncEv.syncProgress pr cf, SyncEv.syncCompleted n t]) :=
  ⟨rfl, C1_amended_cancel_events 1 [("F", 2)] _ rfl⟩

end Inboxly
